import Mathlib

/-!
Verification of the identity and key-management core of the osnova repository
(`src/core/osnova_lib`): a shallow embedding, in Lean 4, of the Rust data
model and operations, together with proofs and refutations of the spec's
claims about them.

Modelling conventions:
* Bytes are `Nat`s (< 256 for genuine byte values); byte strings are `List Nat`.
* Machine integers (`u32`, `u64`) are `Nat`s; wrap-around is written with
  explicit `% 2^w` where the Rust code truncates.
* Pure Rust functions become Lean functions; fallible ones return `Except`.
* External crates (`cocoon`, `bip39`, `blake3`, the dalek curve crates,
  `serde_json`) are not part of this repository's sources; their functions
  enter the embedding as parameters, bundled in the `Ext` structure, and the
  properties the claims need from them (e.g. the authenticated-encryption
  contract of `cocoon`) appear as explicit hypotheses.  The repository's own
  cryptography (`HKDF-SHA256` via the `hkdf`/`sha2` crates, which are pure,
  standard algorithms the code's comments pin down exactly) is implemented
  executably below so that witnesses can evaluate real derivations.
* Clock reads (`SystemTime::now`) become explicit `now : Nat` arguments.
-/

/-! ## Byte-level helpers -/

/-- UTF-8 encoding of a single Unicode code point, as bytes. -/
def utf8EncodeChar (c : Nat) : List Nat :=
  if c < 128 then [c]
  else if c < 2048 then [192 + c / 64, 128 + c % 64]
  else if c < 65536 then [224 + c / 4096, 128 + c / 64 % 64, 128 + c % 64]
  else [240 + c / 262144, 128 + c / 4096 % 64, 128 + c / 64 % 64, 128 + c % 64]

/-- UTF-8 bytes of a string (Rust's `str::as_bytes`). -/
def utf8Bytes (s : String) : List Nat :=
  s.data.foldr (fun ch acc => utf8EncodeChar ch.toNat ++ acc) []

/-- Little-endian 4-byte encoding of a `u32` (Rust's `u32::to_le_bytes`). -/
def u32le (n : Nat) : List Nat :=
  [n % 256, n / 256 % 256, n / 65536 % 256, n / 16777216 % 256]

/-- Little-endian 8-byte encoding of a `u64` (Rust's `u64::to_le_bytes`). -/
def u64le (n : Nat) : List Nat :=
  [n % 256, n / 256 % 256, n / 65536 % 256, n / 16777216 % 256,
   n / 4294967296 % 256, n / 1099511627776 % 256,
   n / 281474976710656 % 256, n / 72057594037927936 % 256]

/-- Big-endian 8-byte encoding of a 64-bit value. -/
def u64be (n : Nat) : List Nat :=
  [n / 72057594037927936 % 256, n / 281474976710656 % 256,
   n / 1099511627776 % 256, n / 4294967296 % 256,
   n / 16777216 % 256, n / 65536 % 256, n / 256 % 256, n % 256]

/-- Big-endian 4-byte encoding of a 32-bit word. -/
def u32be (n : Nat) : List Nat :=
  [n / 16777216 % 256, n / 65536 % 256, n / 256 % 256, n % 256]

/-! ## SHA-256 (FIPS 180-4), executable over byte lists

The `sha2` crate's `Sha256`, as used by the `hkdf` crate.  Words are `Nat`s
kept below `2^32` by explicit masking. -/

/-- Addition of 32-bit words, wrapping. -/
def wadd (a b : Nat) : Nat := (a + b) % 4294967296

/-- Right rotation of a 32-bit word by `n` places. -/
def rotr32 (x n : Nat) : Nat := ((x >>> n) ||| (x <<< (32 - n))) % 4294967296

/-- SHA-256 `Ch(x,y,z)`. -/
def shaCh (x y z : Nat) : Nat := (x &&& y) ^^^ ((x ^^^ 4294967295) &&& z)

/-- SHA-256 `Maj(x,y,z)`. -/
def shaMaj (x y z : Nat) : Nat := (x &&& y) ^^^ (x &&& z) ^^^ (y &&& z)

/-- SHA-256 `Σ₀`. -/
def bsig0 (x : Nat) : Nat := rotr32 x 2 ^^^ rotr32 x 13 ^^^ rotr32 x 22

/-- SHA-256 `Σ₁`. -/
def bsig1 (x : Nat) : Nat := rotr32 x 6 ^^^ rotr32 x 11 ^^^ rotr32 x 25

/-- SHA-256 `σ₀`. -/
def ssig0 (x : Nat) : Nat := rotr32 x 7 ^^^ rotr32 x 18 ^^^ (x >>> 3)

/-- SHA-256 `σ₁`. -/
def ssig1 (x : Nat) : Nat := rotr32 x 17 ^^^ rotr32 x 19 ^^^ (x >>> 10)

/-- The eight SHA-256 initial hash values. -/
def shaH0 : List Nat :=
  [1779033703, 3144134277, 1013904242, 2773480762,
   1359893119, 2600822924, 528734635, 1541459225]

/-- The 64 SHA-256 round constants (fractional parts of the cube roots of the
first 64 primes, FIPS 180-4 §4.2.2), in decimal. -/
def shaK : List Nat :=
  [1116352408, 1899447441, 3049323471, 3921009573,
   961987163, 1508970993, 2453635748, 2870763221,
   3624381080, 310598401, 607225278, 1426881987,
   1925078388, 2162078206, 2614888103, 3248222580,
   3835390401, 4022224774, 264347078, 604807628,
   770255983, 1249150122, 1555081692, 1996064986,
   2554220882, 2821834349, 2952996808, 3210313671,
   3336571891, 3584528711, 113926993, 338241895,
   666307205, 773529912, 1294757372, 1396182291,
   1695183700, 1986661051, 2177026350, 2456956037,
   2730485921, 2820302411, 3259730800, 3345764771,
   3516065817, 3600352804, 4094571909, 275423344,
   430227734, 506948616, 659060556, 883997877,
   958139571, 1322822218, 1537002063, 1747873779,
   1955562222, 2024104815, 2227730452, 2361852424,
   2428436474, 2756734187, 3204031479, 3329325298]

/-- SHA-256 padding: append `0x80`, zeros to 56 mod 64, then the 64-bit
big-endian bit length. -/
def sha256Pad (msg : List Nat) : List Nat :=
  msg ++ 128 :: List.replicate ((119 - msg.length % 64) % 64) 0
      ++ u64be (8 * msg.length)

/-- Big-endian 32-bit words from bytes (length assumed a multiple of 4). -/
def beWords : List Nat → List Nat
  | a :: b :: c :: d :: rest => (a * 16777216 + b * 65536 + c * 256 + d) :: beWords rest
  | _ => []

/-- Split a word list into 16-word blocks; `fuel` bounds the recursion so the
definition is structural (and hence kernel-reducible). -/
def chunks16 : Nat → List Nat → List (List Nat)
  | 0, _ => []
  | _, [] => []
  | fuel + 1, ws => ws.take 16 :: chunks16 fuel (ws.drop 16)

/-- Message-schedule extension step: the accumulator holds the words produced
so far, most recent first. -/
def scheduleStep (rev : List Nat) : List Nat :=
  wadd (wadd (ssig1 (rev.getD 1 0)) (rev.getD 6 0))
       (wadd (ssig0 (rev.getD 14 0)) (rev.getD 15 0)) :: rev

/-- Iterate the schedule step `n` times. -/
def scheduleAux : Nat → List Nat → List Nat
  | 0, rev => rev
  | n + 1, rev => scheduleAux n (scheduleStep rev)

/-- The 64-word message schedule of a 16-word block. -/
def schedule (block : List Nat) : List Nat :=
  (scheduleAux 48 block.reverse).reverse

/-- One SHA-256 round on the 8-word working state. -/
def shaRound (st : List Nat) (kw : Nat × Nat) : List Nat :=
  let a := st.getD 0 0
  let b := st.getD 1 0
  let c := st.getD 2 0
  let d := st.getD 3 0
  let e := st.getD 4 0
  let f := st.getD 5 0
  let g := st.getD 6 0
  let h := st.getD 7 0
  let t1 := wadd h (wadd (bsig1 e) (wadd (shaCh e f g) (wadd kw.1 kw.2)))
  let t2 := wadd (bsig0 a) (shaMaj a b c)
  [wadd t1 t2, a, b, c, wadd d t1, e, f, g]

/-- Compress one 16-word block into the hash state. -/
def shaCompress (st : List Nat) (block : List Nat) : List Nat :=
  List.zipWith wadd st (List.foldl shaRound st (shaK.zip (schedule block)))

/-- SHA-256 of a byte list, as 32 bytes. -/
def sha256 (msg : List Nat) : List Nat :=
  let ws := beWords (sha256Pad msg)
  let final := List.foldl shaCompress shaH0 (chunks16 ws.length ws)
  final.foldr (fun w acc => u32be w ++ acc) []

/-! ## HMAC-SHA256 (FIPS 198-1) and HKDF-SHA256 (RFC 5869) -/

/-- HMAC-SHA256 over byte lists. -/
def hmacSha256 (key msg : List Nat) : List Nat :=
  let k0 := if 64 < key.length then sha256 key else key
  let kp := k0 ++ List.replicate (64 - k0.length) 0
  sha256 ((kp.map (fun b => b ^^^ 92)) ++ sha256 ((kp.map (fun b => b ^^^ 54)) ++ msg))

/-- HKDF-Extract with an explicit salt (the code always passes `Some(salt)`). -/
def hkdfExtract (salt ikm : List Nat) : List Nat := hmacSha256 salt ikm

/-- HKDF-Expand for output lengths up to one hash block (32 bytes) — the only
case the code uses (`expand` into a `[u8; 32]`), where the output is the first
block `T(1) = HMAC(PRK, info ‖ 0x01)` truncated. -/
def hkdfExpand (prk info : List Nat) (l : Nat) : List Nat :=
  (hmacSha256 prk (info ++ [1])).take l

/-- `Hkdf::<Sha256>::new(Some(salt), ikm)` followed by `expand(info, okm)` with
a 32-byte-or-shorter output buffer. -/
def hkdfSha256 (salt ikm info : List Nat) (l : Nat) : List Nat :=
  hkdfExpand (hkdfExtract salt ikm) info l

/-! ## Base64 (standard alphabet with padding, the `base64` crate's
`general_purpose::STANDARD` engine) -/

/-- The standard base64 alphabet. -/
def b64Alphabet : List Char :=
  "ABCDEFGHIJKLMNOPQRSTUVWXYZabcdefghijklmnopqrstuvwxyz0123456789+/".data

/-- Character for a 6-bit group. -/
def b64Char (i : Nat) : Char := b64Alphabet.getD i 'A'

/-- Base64-encode a byte list to characters. -/
def base64Chars : List Nat → List Char
  | [] => []
  | [a] => [b64Char (a / 4), b64Char (a % 4 * 16), '=', '=']
  | [a, b] => [b64Char (a / 4), b64Char (a % 4 * 16 + b / 16), b64Char (b % 16 * 4), '=']
  | a :: b :: c :: rest =>
      b64Char (a / 4) :: b64Char (a % 4 * 16 + b / 16) ::
      b64Char (b % 16 * 4 + c / 64) :: b64Char (c % 64) :: base64Chars rest

/-- Base64-encode a byte list to a string. -/
def base64Encode (bs : List Nat) : String := String.mk (base64Chars bs)

/-! ## Decimal rendering of unsigned integers

Rust's `Display` for `u64`/`u32` as used by `format!("{}:{}", component_id,
index)` and `format!("{}-{}", component_id, purpose)`.  The recursion is
fuel-structural so that it reduces inside the kernel. -/

/-- The ASCII digit for `d < 10`. -/
def digitChar (d : Nat) : Char := Char.ofNat (48 + d)

/-- Decimal digits of `n`, most significant first (empty for `0`);
`fuel ≥ n` suffices. -/
def decDigitsAux : Nat → Nat → List Char
  | 0, _ => []
  | fuel + 1, n =>
      if n = 0 then [] else decDigitsAux fuel (n / 10) ++ [digitChar (n % 10)]

/-- Decimal rendering of a `Nat` (Rust's `u64`/`u32` `Display`). -/
def natRepr (n : Nat) : String :=
  if n = 0 then "0" else String.mk (decDigitsAux n n)

/-- Value of a decimal digit string (left inverse of the rendering). -/
def decVal (cs : List Char) : Nat :=
  cs.foldl (fun acc c => acc * 10 + (c.toNat - 48)) 0

theorem digitChar_toNat : ∀ d, d < 10 → (digitChar d).toNat = 48 + d := by decide

theorem decVal_append_digit (cs : List Char) (c : Char) :
    decVal (cs ++ [c]) = 10 * decVal cs + (c.toNat - 48) := by
  simp [decVal, List.foldl_append, Nat.mul_comm]

theorem decVal_decDigitsAux : ∀ fuel n, n ≤ fuel → decVal (decDigitsAux fuel n) = n := by
  intro fuel
  induction fuel with
  | zero => intro n hn; interval_cases n; simp [decDigitsAux, decVal]
  | succ fuel ih =>
    intro n hn
    by_cases h0 : n = 0
    · simp [decDigitsAux, h0, decVal]
    · have hdiv : n / 10 ≤ fuel := by
        have hlt : n / 10 < n := Nat.div_lt_self (Nat.pos_of_ne_zero h0) (by norm_num)
        omega
      have hd : (digitChar (n % 10)).toNat = 48 + n % 10 :=
        digitChar_toNat _ (Nat.mod_lt _ (by omega))
      simp only [decDigitsAux, h0, if_false, decVal_append_digit, ih _ hdiv, hd]
      omega

theorem decVal_natRepr (n : Nat) : decVal (natRepr n).data = n := by
  by_cases h0 : n = 0
  · simp [natRepr, h0]; decide
  · simp only [natRepr, h0, if_false]
    exact decVal_decDigitsAux n n le_rfl

theorem natRepr_injective {a b : Nat} (h : natRepr a = natRepr b) : a = b := by
  have := congrArg (fun s => decVal s.data) h
  simpa [decVal_natRepr] using this

theorem mem_decDigitsAux_toNat :
    ∀ fuel n c, c ∈ decDigitsAux fuel n → 48 ≤ c.toNat ∧ c.toNat ≤ 57 := by
  intro fuel
  induction fuel with
  | zero => intro n c hc; simp [decDigitsAux] at hc
  | succ fuel ih =>
    intro n c hc
    by_cases h0 : n = 0
    · simp [decDigitsAux, h0] at hc
    · simp only [decDigitsAux, h0, if_false, List.mem_append, List.mem_singleton] at hc
      rcases hc with hc | hc
      · exact ih _ _ hc
      · subst hc
        have := digitChar_toNat (n % 10) (Nat.mod_lt _ (by omega))
        omega

theorem colon_not_mem_natRepr (n : Nat) : ':' ∉ (natRepr n).data := by
  by_cases h0 : n = 0
  · subst h0; decide
  · simp only [natRepr, h0, if_false]
    intro hc
    have hc' : ':' ∈ decDigitsAux n n := hc
    have h1 := mem_decDigitsAux_toNat n n ':' hc'
    have h2 : (':' : Char).toNat = 58 := by decide
    omega

/-- Lists split uniquely at the last occurrence of a separator: if the
separator occurs in neither tail, the decomposition is unique. -/
theorem append_sep_inj {x : Char} :
    ∀ (c₁ c₂ d₁ d₂ : List Char), x ∉ d₁ → x ∉ d₂ →
      c₁ ++ x :: d₁ = c₂ ++ x :: d₂ → c₁ = c₂ ∧ d₁ = d₂ := by
  intro c₁
  induction c₁ with
  | nil =>
    intro c₂ d₁ d₂ h₁ h₂ heq
    cases c₂ with
    | nil => simpa using heq
    | cons y c₂ =>
      simp only [List.nil_append, List.cons_append, List.cons.injEq] at heq
      exfalso
      exact h₁ (heq.2 ▸ List.mem_append_right c₂ (List.mem_cons_self x d₂))
  | cons y c₁ ih =>
    intro c₂ d₁ d₂ h₁ h₂ heq
    cases c₂ with
    | nil =>
      simp only [List.cons_append, List.nil_append, List.cons.injEq] at heq
      exfalso
      exact h₂ (heq.2 ▸ List.mem_append_right c₁ (List.mem_cons_self x d₁))
    | cons z c₂ =>
      simp only [List.cons_append, List.cons.injEq] at heq
      obtain ⟨rfl, heq⟩ := heq
      obtain ⟨rfl, rfl⟩ := ih c₂ d₁ d₂ h₁ h₂ heq
      exact ⟨rfl, rfl⟩

/-- The `"{component_id}:{index}"` key format is injective: the index part
contains no `':'`, so the split at the last `':'` is unique. -/
theorem keyFormat_inj {c₁ c₂ : String} {i₁ i₂ : Nat}
    (h : c₁ ++ ":" ++ natRepr i₁ = c₂ ++ ":" ++ natRepr i₂) :
    c₁ = c₂ ∧ i₁ = i₂ := by
  have hdata := congrArg String.data h
  have hcolon : (":" : String).data = [':'] := rfl
  simp only [String.data_append, hcolon, List.append_assoc, List.singleton_append] at hdata
  have hsep := append_sep_inj c₁.data c₂.data (natRepr i₁).data (natRepr i₂).data
    (colon_not_mem_natRepr i₁) (colon_not_mem_natRepr i₂) hdata
  refine ⟨?_, ?_⟩
  · cases c₁; cases c₂; exact congrArg String.mk hsep.1
  · have := congrArg decVal hsep.2
    simpa [decVal_natRepr] using this

/-! ## Association-list maps

`std::collections::HashMap<String, V>` (and the file system's path → bytes
mapping) modelled as an association list with `insert` replacing an existing
binding, exactly like `HashMap::insert`.  Iteration order over `values()` is
unspecified in Rust; the model fixes insertion order.  Every operation a claim
depends on (`insert`, `get`, maximum of indices) is order-independent. -/

/-- `HashMap::insert`: replace the binding of `k` if present, else append. -/
def alInsert {α : Type} : List (String × α) → String → α → List (String × α)
  | [], k, v => [(k, v)]
  | (k', v') :: rest, k, v =>
      if k' = k then (k, v) :: rest else (k', v') :: alInsert rest k v

/-- `HashMap::get`. -/
def alFind {α : Type} : List (String × α) → String → Option α
  | [], _ => none
  | (k', v) :: rest, k => if k' = k then some v else alFind rest k

theorem alFind_alInsert {α : Type} (m : List (String × α)) (k k' : String) (v : α) :
    alFind (alInsert m k v) k' = if k = k' then some v else alFind m k' := by
  induction m with
  | nil => simp [alInsert, alFind]
  | cons kv rest ih =>
    obtain ⟨k₀, v₀⟩ := kv
    by_cases h₀ : k₀ = k
    · subst h₀
      by_cases h : k₀ = k' <;> simp [alInsert, alFind, h]
    · by_cases h' : k₀ = k'
      · have hkk : ¬k = k' := fun hh => h₀ (by rw [h', hh])
        have hkk' : ¬k' = k := fun hh => hkk hh.symm
        simp [alInsert, alFind, h₀, h', hkk, hkk']
      · simp [alInsert, alFind, h₀, h', ih]

theorem alInsert_values_of_fresh {α : Type} (m : List (String × α)) (k : String) (v : α)
    (h : alFind m k = none) :
    (alInsert m k v).map Prod.snd = m.map Prod.snd ++ [v] := by
  induction m with
  | nil => simp [alInsert]
  | cons kv rest ih =>
    obtain ⟨k₀, v₀⟩ := kv
    by_cases h₀ : k₀ = k
    · simp [alFind, h₀] at h
    · simp only [alFind, h₀, if_false] at h
      simp [alInsert, h₀, ih h]

theorem alFind_some_mem {α : Type} (m : List (String × α)) (k : String) (v : α)
    (h : alFind m k = some v) : (k, v) ∈ m := by
  induction m with
  | nil => simp [alFind] at h
  | cons kv rest ih =>
    obtain ⟨k₀, v₀⟩ := kv
    by_cases h₀ : k₀ = k
    · simp only [alFind, h₀, if_true] at h
      subst h₀
      cases h
      exact List.mem_cons_self _ _
    · simp only [alFind, h₀, if_false] at h
      exact List.mem_cons_of_mem _ (ih h)

/-! ## Error types

`cocoon::Error` and `osnova_lib::OsnovaError` (src/core/osnova_lib/src/lib.rs).
`anyhow::Error`, used by the two services, is modelled as a `String` message. -/

/-- The `cocoon` crate's error type. -/
inductive CocoonError where
  | Cryptography : CocoonError
  | TooShort : CocoonError
  | TooLarge : CocoonError
  | UnrecognizedFormat : CocoonError
  | Io : String → CocoonError
deriving DecidableEq

/-- `OsnovaError` from src/core/osnova_lib/src/lib.rs (the `Serialization`
and `Io` payloads, foreign error types in Rust, are carried as strings). -/
inductive OsnovaError where
  | Database : String → OsnovaError
  | Crypto : String → OsnovaError
  | Storage : String → OsnovaError
  | Identity : String → OsnovaError
  | Network : String → OsnovaError
  | Serialization : String → OsnovaError
  | Io : String → OsnovaError
  | Other : String → OsnovaError
deriving DecidableEq

/-! ## External-crate functions

Everything the embedded code calls that lives outside this repository's
sources, bundled as parameters.  Each field is a pure function: all of these
crate operations are deterministic functions of their arguments (`MiniCocoon`
is constructed from an explicit 32-byte nonce-seed, so its wrap/unwrap pair
is a function of key, seed, and payload). -/

structure ExtFns where
  /-- `MiniCocoon::from_key(key, seed).wrap(plaintext)`. -/
  wrap : List Nat → List Nat → List Nat → Except CocoonError (List Nat)
  /-- `MiniCocoon::from_key(key, seed).unwrap(ciphertext)`. -/
  unwrap : List Nat → List Nat → List Nat → Except CocoonError (List Nat)
  /-- `blake3::Hasher` over a single `update` call: 32-byte digest. -/
  blake3 : List Nat → List Nat
  /-- `bip39::Mnemonic::from_entropy(e).words()` (the `.expect` in
  `derive_address` cannot fire on 16-byte entropy). -/
  mnemonicWords : List Nat → List String
  /-- `bip39::Mnemonic::parse_in(Language::English, s)`, yielding the
  canonical mnemonic string (`mnemonic.to_string()`) or an error message. -/
  parseMnemonic : String → Except String String
  /-- `mnemonic.to_seed("")`: the 64-byte BIP-39 seed. -/
  mnemonicToSeed : String → List Nat
  /-- `ed25519_dalek`: verifying-key bytes of the signing key built from a
  32-byte seed. -/
  ed25519Pub : List Nat → List Nat
  /-- `x25519_dalek::PublicKey::from(secret_bytes)`: scalar · base point. -/
  x25519Pub : List Nat → List Nat
  /-- `serde_json::to_vec` on a string value. -/
  jsonEncodeString : String → List Nat
  /-- `serde_json::from_slice` expecting a string value. -/
  jsonDecodeString : List Nat → Option String

/-! ## CocoonEncryption (src/core/osnova_lib/src/crypto/encryption.rs) -/

/-- `CocoonEncryption::map_cocoon_error` (encryption.rs:122-136). -/
def mapCocoonError : CocoonError → OsnovaError
  | .Cryptography => .Crypto "Encryption/decryption failed"
  | .TooShort => .Crypto "Ciphertext too short - invalid format"
  | .TooLarge => .Crypto "Data too large to encrypt"
  | .UnrecognizedFormat => .Crypto "Unrecognized ciphertext format"
  | .Io m => .Io m

/-- `CocoonEncryption::encrypt` (encryption.rs:79-82): wrap under
`MiniCocoon::from_key(&self.key, &[0u8; 32])` — the nonce-seed is the
constant all-zero array. -/
def cocoonEncrypt (ext : ExtFns) (key plaintext : List Nat) : Except OsnovaError (List Nat) :=
  (ext.wrap key (List.replicate 32 0) plaintext).mapError mapCocoonError

/-- `CocoonEncryption::decrypt` (encryption.rs:116-119). -/
def cocoonDecrypt (ext : ExtFns) (key ciphertext : List Nat) : Except OsnovaError (List Nat) :=
  (ext.unwrap key (List.replicate 32 0) ciphertext).mapError mapCocoonError

/-- The encrypt call with the ambient randomness available at call time made
explicit.  `MiniCocoon::from_key` takes a 32-byte nonce-seed; an
implementation drawing a fresh nonce per encryption (the corrected design of
spec §4.5) would pass fresh entropy there.  The source at encryption.rs:80
passes the constant `[0u8; 32]` instead, so `entropy` is ignored — which is
exactly the determinism defect the spec records. -/
def cocoonEncryptWithEntropy (ext : ExtFns) (entropy : List Nat) (key plaintext : List Nat) :
    Except OsnovaError (List Nat) :=
  cocoonEncrypt ext key plaintext

/-- The authenticated-encryption contract of the `cocoon` crate's
`MiniCocoon`, the facts about the external primitive that the spec's
encryption claims rely on: unwrap inverts wrap; unwrap under a different
(equal-length) key fails with `Error::Cryptography`; and changing any single
byte of a wrapped ciphertext makes unwrap fail with `Error::Cryptography`. -/
structure MiniCocoonSpec (ext : ExtFns) : Prop where
  unwrap_wrap : ∀ k s p c, ext.wrap k s p = .ok c → ext.unwrap k s c = .ok p
  wrong_key : ∀ k k' s p c, k.length = k'.length → k ≠ k' →
    ext.wrap k s p = .ok c → ext.unwrap k' s c = .error .Cryptography
  tamper : ∀ k s p c i b, ext.wrap k s p = .ok c → i < c.length →
    c.getD i 0 ≠ b → ext.unwrap k s (c.set i b) = .error .Cryptography

/-! ## RootIdentity (src/core/osnova_lib/src/models/identity.rs) -/

/-- `RootIdentity`: the 12-word mnemonic and the derived 256-bit master key. -/
structure RootIdentity where
  seedMnemonic : String
  masterKey : List Nat
deriving DecidableEq

/-- `RootIdentity::derive_master_key` (identity.rs:110-118): HKDF-SHA256 with
salt `"osnova-master-key-v1"`, empty info, 32-byte output (which cannot fail,
so the Rust `Result` is always `Ok`). -/
def deriveMasterKey (seed : List Nat) : List Nat :=
  hkdfSha256 (utf8Bytes "osnova-master-key-v1") seed [] 32

/-- `RootIdentity::from_mnemonic` (identity.rs:90-101); the BIP-39 seed
expansion `mnemonic.to_seed("")` is the external `bip39` crate. -/
def RootIdentity.fromMnemonic (ext : ExtFns) (m : String) : RootIdentity :=
  { seedMnemonic := m, masterKey := deriveMasterKey (ext.mnemonicToSeed m) }

/-- `RootIdentity::from_seed` (identity.rs:81-87): parse and validate the
phrase, then converge on `from_mnemonic`. -/
def RootIdentity.fromSeed (ext : ExtFns) (phrase : String) : Except String RootIdentity :=
  match ext.parseMnemonic phrase with
  | .error e => .error ("Invalid seed phrase: " ++ e)
  | .ok m => .ok (RootIdentity.fromMnemonic ext m)

/-- `RootIdentity::fingerprint` (identity.rs:190-194): BLAKE3 of the master
key alone. -/
def RootIdentity.fingerprint (ext : ExtFns) (ident : RootIdentity) : List Nat :=
  ext.blake3 ident.masterKey

/-- `RootIdentity::derive_component_key` (identity.rs:154-173): HKDF-SHA256
with salt `format!("{}-{}", component_id, purpose)`, ikm the master key, and
info the little-endian bytes of the `u32` index; 32-byte output (the `expand`
cannot fail at this length). -/
def RootIdentity.deriveComponentKey (ident : RootIdentity) (componentId : String)
    (index : Nat) (purpose : String) : List Nat :=
  hkdfSha256 (utf8Bytes (componentId ++ "-" ++ purpose)) ident.masterKey (u32le index) 32

/-! ## Key derivation (src/core/osnova_lib/src/crypto/key_derivation.rs) -/

/-- `derive_symmetric_key` (key_derivation.rs:66-83): HKDF-SHA256 with salt
`component_id`, ikm the master key, info
`"osnova-v1-key-derivation" ‖ index.to_le_bytes()` (`u64` index); 32-byte
output (the `expand` cannot fail at this length). -/
def deriveSymmetricKey (masterKey : List Nat) (componentId : String) (index : Nat) :
    List Nat :=
  hkdfSha256 (utf8Bytes componentId) masterKey
    (utf8Bytes "osnova-v1-key-derivation" ++ u64le index) 32

/-! ## Key cocoon (src/core/osnova_lib/src/models/key_cocoon.rs) -/

/-- `KeyType` from key_cocoon.rs. -/
inductive KeyType where
  | Ed25519 : KeyType
  | X25519 : KeyType
  | Secp256k1 : KeyType
deriving DecidableEq

/-- `DerivedKeyEntry` from key_cocoon.rs. -/
structure DerivedKeyEntry where
  publicKey : String
  secretKey : String
  componentId : String
  index : Nat
  createdAt : Nat
  keyType : KeyType
deriving DecidableEq

/-- `DerivedKeyEntry::new` (key_cocoon.rs:39-57); the `SystemTime::now` read
becomes the explicit `now`. -/
def DerivedKeyEntry.new (publicKey secretKey componentId : String) (index : Nat)
    (keyType : KeyType) (now : Nat) : DerivedKeyEntry :=
  { publicKey, secretKey, componentId, index, createdAt := now, keyType }

/-- `DerivedKeyEntry::key_id` (key_cocoon.rs:60-62):
`format!("{}:{}", component_id, index)`. -/
def DerivedKeyEntry.keyId (e : DerivedKeyEntry) : String :=
  e.componentId ++ ":" ++ natRepr e.index

/-- `KeyMetadata` from key_cocoon.rs. -/
structure KeyMetadata where
  version : Nat
  createdAt : Nat
  updatedAt : Nat
deriving DecidableEq

/-- `KeyCocoon` from key_cocoon.rs; the `HashMap` is the association list
above. -/
structure KeyCocoon where
  masterKey : List Nat
  derivedKeys : List (String × DerivedKeyEntry)
  metadata : KeyMetadata
deriving DecidableEq

/-- `KeyCocoon::new` (key_cocoon.rs:89-104). -/
def KeyCocoon.new (masterKey : List Nat) (now : Nat) : KeyCocoon :=
  { masterKey, derivedKeys := [],
    metadata := { version := 1, createdAt := now, updatedAt := now } }

/-- `KeyCocoon::add_key` (key_cocoon.rs:107-111): `HashMap::insert` under the
entry's `key_id`, then `update_timestamp`. -/
def KeyCocoon.addKey (c : KeyCocoon) (entry : DerivedKeyEntry) (now : Nat) : KeyCocoon :=
  { c with derivedKeys := alInsert c.derivedKeys entry.keyId entry,
           metadata := { c.metadata with updatedAt := now } }

/-- `KeyCocoon::get_key` (key_cocoon.rs:114-117). -/
def KeyCocoon.getKey (c : KeyCocoon) (componentId : String) (index : Nat) :
    Option DerivedKeyEntry :=
  alFind c.derivedKeys (componentId ++ ":" ++ natRepr index)

/-- `KeyCocoon::get_by_public_key` (key_cocoon.rs:120-124): linear scan over
values (Rust's iteration order is unspecified; the model uses insertion
order). -/
def KeyCocoon.getByPublicKey (c : KeyCocoon) (publicKey : String) :
    Option DerivedKeyEntry :=
  (c.derivedKeys.map Prod.snd).find? (fun e => e.publicKey == publicKey)

/-- `KeyCocoon::list_keys` (key_cocoon.rs:127-132). -/
def KeyCocoon.listKeys (c : KeyCocoon) (componentId : String) : List DerivedKeyEntry :=
  (c.derivedKeys.map Prod.snd).filter (fun e => e.componentId == componentId)

/-- `KeyCocoon::highest_index` (key_cocoon.rs:135-140): maximum index among a
component's entries. -/
def KeyCocoon.highestIndex (c : KeyCocoon) (componentId : String) : Option Nat :=
  ((c.listKeys componentId).map (fun e => e.index)).max?

/-- Map-key consistency: every binding's key is its entry's `key_id`.  This
holds for every cocoon the code ever builds (`new` starts empty and `add_key`
inserts under `entry.key_id()`). -/
def KeyCocoon.WF (c : KeyCocoon) : Prop :=
  ∀ kv ∈ c.derivedKeys, kv.1 = kv.2.keyId

/-! ## Key service (src/core/osnova_lib/src/services/keys.rs)

The vault file `identity/keys.cocoon` passes through `serde_json` and
`CocoonEncryption` inside `FileStorage` on every load/save; both layers are
external crates whose encode/decode round-trip is their documented contract,
so the persisted artifact is modelled at the granularity of its decoded
content: an `Option KeyCocoon` (`none` = no vault file). -/

/-- `KeyDerivationResponse` from keys.rs. -/
structure KeyDerivationResponse where
  publicKey : String
  index : Nat
  created : Nat
deriving DecidableEq

/-- `KeyService::load_cocoon` (keys.rs:362-372): error when the vault file is
absent (or, in Rust, unreadable). -/
def loadCocoon : Option KeyCocoon → Except String KeyCocoon
  | some c => .ok c
  | none => .error "Failed to read key cocoon"

/-- `KeyService::save_cocoon` (keys.rs:375-384): serialize, encrypt and
rewrite the whole vault file. -/
def saveCocoon (c : KeyCocoon) (_vault : Option KeyCocoon) : Option KeyCocoon :=
  some c

/-- `KeyService::generate_ed25519` (keys.rs:325-336): the dalek verifying key
of the seed, and the seed itself, both base64-encoded
(`SigningKey::from_bytes(seed).to_bytes() = seed`). -/
def generateEd25519 (ext : ExtFns) (seed : List Nat) : String × String :=
  (base64Encode (ext.ed25519Pub seed), base64Encode seed)

/-- `KeyService::generate_x25519` (keys.rs:339-352). -/
def generateX25519 (ext : ExtFns) (seed : List Nat) : String × String :=
  (base64Encode (ext.x25519Pub seed), base64Encode seed)

/-- The `match key_type` in `derive_at_index_internal` (keys.rs:296-300),
including the `generate_secp256k1` bail-out (keys.rs:355-359). -/
def generateKeypairStr (ext : ExtFns) (kt : KeyType) (seed : List Nat) :
    Except String (String × String) :=
  match kt with
  | .Ed25519 => .ok (generateEd25519 ext seed)
  | .X25519 => .ok (generateX25519 ext seed)
  | .Secp256k1 => .error "Secp256k1 key generation not yet implemented"

/-- `KeyService::derive_at_index_internal` (keys.rs:281-322): derive the seed
with HKDF, generate the requested key pair, build the entry and response,
`add_key`, save. -/
def deriveAtIndexInternal (ext : ExtFns) (cocoon : KeyCocoon) (componentId : String)
    (index : Nat) (kt : KeyType) (now : Nat) (vault : Option KeyCocoon) :
    Except String (KeyDerivationResponse × Option KeyCocoon) :=
  let seed := deriveSymmetricKey cocoon.masterKey componentId index
  match generateKeypairStr ext kt seed with
  | .error e => .error e
  | .ok ks =>
      let entry := DerivedKeyEntry.new ks.1 ks.2 componentId index kt now
      let response : KeyDerivationResponse :=
        { publicKey := entry.publicKey, index := entry.index, created := entry.createdAt }
      .ok (response, saveCocoon (cocoon.addKey entry now) vault)

/-- `KeyService::derive_at_index` (keys.rs:180-199): load; if an entry exists
at the slot return it verbatim (no save), else derive. -/
def deriveAtIndex (ext : ExtFns) (componentId : String) (index : Nat) (kt : KeyType)
    (now : Nat) (vault : Option KeyCocoon) :
    Except String (KeyDerivationResponse × Option KeyCocoon) :=
  match loadCocoon vault with
  | .error e => .error e
  | .ok cocoon =>
      match cocoon.getKey componentId index with
      | some entry =>
          .ok ({ publicKey := entry.publicKey, index := entry.index,
                 created := entry.createdAt }, vault)
      | none => deriveAtIndexInternal ext cocoon componentId index kt now vault

/-- The next free index (keys.rs:145):
`cocoon.highest_index(component_id).map(|i| i + 1).unwrap_or(0)`. -/
def nextIndex (cocoon : KeyCocoon) (componentId : String) : Nat :=
  match cocoon.highestIndex componentId with
  | some i => i + 1
  | none => 0

/-- `KeyService::derive` (keys.rs:141-149): derive at the next free index. -/
def derive (ext : ExtFns) (componentId : String) (kt : KeyType) (now : Nat)
    (vault : Option KeyCocoon) :
    Except String (KeyDerivationResponse × Option KeyCocoon) :=
  match loadCocoon vault with
  | .error e => .error e
  | .ok cocoon =>
      deriveAtIndexInternal ext cocoon componentId (nextIndex cocoon componentId) kt now vault

/-! ## Encrypted file storage (src/core/osnova_lib/src/storage/file.rs)

For the identity service the file contents matter (claim C9 is about a file
that exists but cannot be decrypted), so here the store maps relative paths
to raw encrypted bytes. -/

/-- Path → encrypted bytes. -/
abbrev Storage := List (String × List Nat)

/-- `FileStorage::exists` (file.rs:157-160). -/
def fileExists (store : Storage) (path : String) : Bool :=
  (alFind store path).isSome

/-- `FileStorage::write` (file.rs:82-106): encrypt then write (`fs::write`
overwrites). -/
def fileWrite (ext : ExtFns) (store : Storage) (path : String) (data key : List Nat) :
    Except String Storage :=
  match cocoonEncrypt ext key data with
  | .error _ => .error "Failed to encrypt data"
  | .ok enc => .ok (alInsert store path enc)

/-- `FileStorage::read` (file.rs:133-150): read then decrypt. -/
def fileRead (ext : ExtFns) (store : Storage) (path : String) (key : List Nat) :
    Except String (List Nat) :=
  match alFind store path with
  | none => .error ("Failed to read file: " ++ path)
  | some enc =>
      match cocoonDecrypt ext key enc with
      | .error _ => .error "Failed to decrypt data"
      | .ok data => .ok data

/-! ## Identity service (src/core/osnova_lib/src/services/identity.rs) -/

/-- `IdentityStatus` from identity.rs. -/
structure IdentityStatus where
  initialized : Bool
  address : Option String
deriving DecidableEq

/-- The identity file path (identity.rs:62). -/
def identityPath : String := "identity/root.enc"

/-- `IdentityService::get_platform_key` (identity.rs:273-287): BLAKE3 of the
fixed development string — a deterministic placeholder key. -/
def getPlatformKey (ext : ExtFns) : List Nat :=
  ext.blake3 (utf8Bytes "osnova-platform-key-v1")

/-- `IdentityService::derive_address` (identity.rs:293-307): 4-word label from
the first 16 fingerprint bytes via a BIP-39 mnemonic. -/
def deriveAddress (ext : ExtFns) (ident : RootIdentity) : String :=
  String.intercalate " "
    ((ext.mnemonicWords ((RootIdentity.fingerprint ext ident).take 16)).take 4)

/-- `IdentityService::load_identity` (identity.rs:233-248): read + decrypt,
JSON-decode the seed phrase, reconstruct the identity from it. -/
def loadIdentity (ext : ExtFns) (store : Storage) (encryptionKey : List Nat) :
    Except String RootIdentity :=
  match fileRead ext store identityPath encryptionKey with
  | .error _ => .error "Failed to read identity from storage"
  | .ok bytes =>
      match ext.jsonDecodeString bytes with
      | none => .error "Failed to deserialize seed phrase"
      | some phrase =>
          match RootIdentity.fromSeed ext phrase with
          | .error _ => .error "Failed to reconstruct identity from seed phrase"
          | .ok ident => .ok ident

/-- `IdentityService::save_identity` (identity.rs:251-262): JSON-encode only
the seed phrase and write it encrypted. -/
def saveIdentity (ext : ExtFns) (store : Storage) (ident : RootIdentity)
    (encryptionKey : List Nat) : Except String Storage :=
  fileWrite ext store identityPath (ext.jsonEncodeString ident.seedMnemonic) encryptionKey

/-- `IdentityService::status` (identity.rs:87-114): absent file → not
initialized; load failure → logged, reported as not initialized (`Ok`);
success → initialized with the derived address. -/
def identityStatus (ext : ExtFns) (store : Storage) : Except String IdentityStatus :=
  if !fileExists store identityPath then
    .ok { initialized := false, address := none }
  else
    match loadIdentity ext store (getPlatformKey ext) with
    | .ok ident => .ok { initialized := true, address := some (deriveAddress ext ident) }
    | .error _ => .ok { initialized := false, address := none }

/-- `IdentityService::create` (identity.rs:142-158).  `gen` is the outcome of
the call to `RootIdentity::generate()` (fresh randomness, hence a parameter).
The pair `(result, store)` makes the storage side effect explicit; every
early-error return leaves the store untouched, as in Rust. -/
def identityCreate (ext : ExtFns) (gen : Except String RootIdentity) (store : Storage) :
    Except String (String × String) × Storage :=
  if fileExists store identityPath then
    (.error "Identity already exists. Use importWithPhrase to restore from backup.", store)
  else
    match gen with
    | .error e => (.error e, store)
    | .ok ident =>
        match saveIdentity ext store ident (getPlatformKey ext) with
        | .error e => (.error e, store)
        | .ok store' => (.ok (ident.seedMnemonic, deriveAddress ext ident), store')

/-- `IdentityService::import_with_phrase` (identity.rs:189-204). -/
def identityImportWithPhrase (ext : ExtFns) (seedPhrase : String) (store : Storage) :
    Except String String × Storage :=
  if fileExists store identityPath then
    (.error "Identity already exists. Delete existing identity first.", store)
  else
    match RootIdentity.fromSeed ext seedPhrase with
    | .error e => (.error e, store)
    | .ok ident =>
        match saveIdentity ext store ident (getPlatformKey ext) with
        | .error e => (.error e, store)
        | .ok store' => (.ok (deriveAddress ext ident), store')

/-! ## A reference instantiation of the external functions

Used by the witnesses: a concrete `ExtFns` whose wrap/unwrap pair provably
satisfies the `MiniCocoonSpec` contract.  The cipher is a stand-in, not
ChaCha20-Poly1305: it sandwiches the key between two copies of the payload,
which makes wrong-key and single-byte-tamper detection provable. -/

/-- Reference wrap: `p ‖ k ‖ p`. -/
def modelWrap (k _s p : List Nat) : Except CocoonError (List Nat) :=
  .ok (p ++ k ++ p)

/-- Reference unwrap: accept exactly the well-formed sandwiches under `k`. -/
def modelUnwrap (k _s c : List Nat) : Except CocoonError (List Nat) :=
  let n := (c.length - k.length) / 2
  if k.length ≤ c.length ∧ (c.length - k.length) % 2 = 0
      ∧ (c.drop n).take k.length = k ∧ c.take n = c.drop (n + k.length)
  then .ok (c.take n)
  else .error .Cryptography

theorem getD_append_left {l₁ l₂ : List Nat} {i : Nat} (h : i < l₁.length) :
    (l₁ ++ l₂).getD i 0 = l₁.getD i 0 := by
  simp [List.getD_eq_getElem?_getD, List.getElem?_append_left h]

theorem getD_append_right {l₁ l₂ : List Nat} {i : Nat} (h : l₁.length ≤ i) :
    (l₁ ++ l₂).getD i 0 = l₂.getD (i - l₁.length) 0 := by
  simp [List.getD_eq_getElem?_getD, List.getElem?_append_right h]

theorem set_getD_self {l : List Nat} {i b : Nat} (h : i < l.length) :
    (l.set i b).getD i 0 = b := by
  simp [List.getD_eq_getElem?_getD, List.getElem?_set_self h]

theorem set_ne_of_getD {l : List Nat} {i b : Nat} (h : i < l.length)
    (hb : l.getD i 0 ≠ b) : l.set i b ≠ l := by
  intro he
  have h2 : (l.set i b).getD i 0 = l.getD i 0 := congrArg (fun x => x.getD i 0) he
  rw [set_getD_self h] at h2
  exact hb h2.symm

theorem sand_len (a k b : List Nat) :
    (a ++ k ++ b).length = a.length + k.length + b.length := by
  simp [List.length_append]
  omega

theorem sand_take (a k b : List Nat) : (a ++ k ++ b).take a.length = a := by
  rw [List.append_assoc]
  exact List.take_left a (k ++ b)

theorem sand_drop (a k b : List Nat) : (a ++ k ++ b).drop a.length = k ++ b := by
  rw [List.append_assoc]
  exact List.drop_left a (k ++ b)

theorem sand_drop2 (a k b : List Nat) :
    (a ++ k ++ b).drop (a.length + k.length) = b := by
  rw [← List.drop_drop, sand_drop]
  exact List.drop_left k b

theorem sand_take' {a : List Nat} (k b : List Nat) {n : Nat} (h : a.length = n) :
    (a ++ k ++ b).take n = a := by
  subst h
  exact sand_take a k b

theorem sand_drop2' {a : List Nat} (k : List Nat) (b : List Nat) {n m : Nat}
    (h : a.length = n) (h2 : k.length = m) : (a ++ k ++ b).drop (n + m) = b := by
  subst h
  subst h2
  exact sand_drop2 a k b

/-- The reference cipher inverts itself under the right key. -/
theorem modelCocoonSpec_aux_roundtrip (k s p : List Nat) :
    modelUnwrap k s (p ++ k ++ p) = .ok p := by
  have hlen := sand_len p k p
  have hn : ((p ++ k ++ p).length - k.length) / 2 = p.length := by omega
  unfold modelUnwrap
  rw [hn]
  rw [if_pos]
  · rw [sand_take]
  · refine ⟨by omega, by omega, ?_, ?_⟩
    · rw [sand_drop]
      exact List.take_left k p
    · rw [sand_take, sand_drop2]

/-- The reference cipher rejects any other key of the same length. -/
theorem modelCocoonSpec_aux_wrongkey (k k' s p : List Nat)
    (hlen : k.length = k'.length) (hne : k ≠ k') :
    modelUnwrap k' s (p ++ k ++ p) = .error .Cryptography := by
  have hl := sand_len p k p
  have hn : ((p ++ k ++ p).length - k'.length) / 2 = p.length := by omega
  unfold modelUnwrap
  rw [hn, if_neg]
  rintro ⟨-, -, h3, -⟩
  rw [sand_drop, ← hlen, List.take_left] at h3
  exact hne h3

/-- The reference cipher rejects any single-byte modification. -/
theorem modelCocoonSpec_aux_tamper (k s p : List Nat) (i b : Nat)
    (hi : i < (p ++ k ++ p).length) (hb : (p ++ k ++ p).getD i 0 ≠ b) :
    modelUnwrap k s ((p ++ k ++ p).set i b) = .error .Cryptography := by
  have hl := sand_len p k p
  have hlc : ((p ++ k ++ p).set i b).length = p.length + k.length + p.length := by
    rw [List.length_set]
    omega
  have hn : (((p ++ k ++ p).set i b).length - k.length) / 2 = p.length := by omega
  unfold modelUnwrap
  rw [hn, if_neg]
  rintro ⟨-, -, h3, h4⟩
  have hpk : (p ++ k).length = p.length + k.length := List.length_append p k
  rcases Nat.lt_or_ge i p.length with hip | hip1
  · -- modified byte inside the first payload copy
    have hdec : (p ++ k ++ p).set i b = p.set i b ++ k ++ p := by
      rw [List.set_append_left _ _ (by rw [hpk]; omega), List.set_append_left _ _ hip]
    have hps : (p.set i b).length = p.length := List.length_set p i b
    rw [hdec, sand_take' _ _ hps, sand_drop2' _ _ hps rfl] at h4
    have hgd : (p ++ k ++ p).getD i 0 = p.getD i 0 := by
      rw [getD_append_left (by rw [hpk]; omega), getD_append_left hip]
    exact set_ne_of_getD hip (fun he => hb (hgd.symm ▸ he)) h4
  · rcases Nat.lt_or_ge i (p.length + k.length) with hik | hik1
    · -- modified byte inside the embedded key copy
      have hdec : (p ++ k ++ p).set i b = p ++ k.set (i - p.length) b ++ p := by
        rw [List.set_append_left _ _ (by rw [hpk]; omega), List.set_append_right _ _ hip1]
      have hks : (k.set (i - p.length) b).length = k.length := List.length_set k _ b
      rw [hdec, sand_drop, List.take_left' hks] at h3
      have hj : i - p.length < k.length := by omega
      have hgd : (p ++ k ++ p).getD i 0 = k.getD (i - p.length) 0 := by
        rw [getD_append_left (by rw [hpk]; omega), getD_append_right hip1]
      exact set_ne_of_getD hj (fun he => hb (hgd.symm ▸ he)) h3
    · -- modified byte inside the second payload copy
      have hdec : (p ++ k ++ p).set i b =
          p ++ k ++ p.set (i - (p.length + k.length)) b := by
        rw [List.set_append_right _ _ (by rw [hpk]; omega)]
        rw [hpk]
      have hps : (p.set (i - (p.length + k.length)) b).length = p.length :=
        List.length_set p _ b
      rw [hdec, sand_take, sand_drop2] at h4
      have hj : i - (p.length + k.length) < p.length := by omega
      have hgd : (p ++ k ++ p).getD i 0 = p.getD (i - (p.length + k.length)) 0 := by
        rw [getD_append_right (by rw [hpk]; omega), hpk]
      exact set_ne_of_getD hj (fun he => hb (hgd.symm ▸ he)) h4.symm

/-- The reference instantiation of all external-crate functions.  The curve,
hash and serialization stand-ins are simple concrete functions; only the
properties witnessed through them matter. -/
def modelExtFns : ExtFns :=
  { wrap := modelWrap
    unwrap := modelUnwrap
    blake3 := fun b => b
    mnemonicWords := fun _ => ["alpha", "bravo", "charlie", "delta", "echo"]
    parseMnemonic := fun s => .ok s
    mnemonicToSeed := utf8Bytes
    ed25519Pub := fun b => b
    x25519Pub := fun b => 1 :: b
    jsonEncodeString := utf8Bytes
    jsonDecodeString := fun _ => none }

/-- The reference cipher satisfies the `MiniCocoon` contract. -/
theorem modelExtSpec : MiniCocoonSpec modelExtFns := by
  constructor
  · intro k s p c h
    have h' : (Except.ok (p ++ k ++ p) : Except CocoonError (List Nat)) = .ok c := h
    cases h'
    exact modelCocoonSpec_aux_roundtrip k s p
  · intro k k' s p c hlen hne h
    have h' : (Except.ok (p ++ k ++ p) : Except CocoonError (List Nat)) = .ok c := h
    cases h'
    exact modelCocoonSpec_aux_wrongkey k k' s p hlen hne
  · intro k s p c i b h hi hb
    have h' : (Except.ok (p ++ k ++ p) : Except CocoonError (List Nat)) = .ok c := h
    cases h'
    exact modelCocoonSpec_aux_tamper k s p i b hi hb

/-- A successful `encrypt` exposes a successful underlying `wrap` at the
all-zero nonce-seed. -/
theorem cocoonEncrypt_ok_wrap (ext : ExtFns) (k p c : List Nat)
    (h : cocoonEncrypt ext k p = .ok c) :
    ext.wrap k (List.replicate 32 0) p = .ok c := by
  unfold cocoonEncrypt at h
  cases hw : ext.wrap k (List.replicate 32 0) p with
  | ok c' =>
    rw [hw] at h
    simp [Except.mapError] at h
    rw [h]
  | error e =>
    rw [hw] at h
    simp [Except.mapError] at h

/-! ## Claim theorems -/

/-- C1 (counterexample): the domain-separation claim is false as stated.  The
inputs `(component_id, purpose) = ("a-b", "c")` and `("a", "b-c")` differ,
yet `derive_component_key` returns the same 32-byte key for both under the
same master key and index, because the salt is the ambiguous concatenation
`format!("{}-{}", component_id, purpose)` and both pairs yield the salt
`"a-b-c"`. -/
theorem c1_domain_separation_counterexample :
    (("a-b", "c") ≠ ("a", "b-c")) ∧
    RootIdentity.deriveComponentKey ⟨"", List.replicate 32 0⟩ "a-b" 0 "c" =
      RootIdentity.deriveComponentKey ⟨"", List.replicate 32 0⟩ "a" 0 "b-c" := by
  constructor
  · decide
  · unfold RootIdentity.deriveComponentKey
    have h : ("a-b" ++ "-" ++ "c" : String) = "a" ++ "-" ++ "b-c" := by decide
    rw [h]

/-- C1 (amended): the derived key is a pure function of exactly the master
key, the formatted salt string `"{component_id}-{purpose}"`, and the index:
equal inputs give equal outputs, and any two inputs whose salt strings
coincide collide — nothing besides those three values influences the
result. -/
theorem c1_domain_separation_amended (ident : RootIdentity) (c₁ p₁ c₂ p₂ : String)
    (i : Nat) (h : c₁ ++ "-" ++ p₁ = c₂ ++ "-" ++ p₂) :
    ident.deriveComponentKey c₁ i p₁ = ident.deriveComponentKey c₂ i p₂ := by
  unfold RootIdentity.deriveComponentKey
  rw [h]

theorem c1_domain_separation_amended_witness :
    (("a-b" ++ "-" ++ "c" : String) = "a" ++ "-" ++ "b-c") ∧
    RootIdentity.deriveComponentKey ⟨"seed", List.replicate 32 1⟩ "a-b" 5 "c" =
      RootIdentity.deriveComponentKey ⟨"seed", List.replicate 32 1⟩ "a" 5 "b-c" :=
  ⟨by decide,
   c1_domain_separation_amended ⟨"seed", List.replicate 32 1⟩ "a-b" "c" "a" "b-c" 5
     (by decide)⟩

/-- C2: encryption is deterministic.  Two runs of `encrypt` under the same
256-bit key and plaintext — even with different ambient entropy available at
the two call sites — return byte-identical ciphertexts, because the source
seeds `MiniCocoon` with the constant `[0u8; 32]` instead of drawing from the
entropy source. -/
theorem c2_encrypt_deterministic (ext : ExtFns) (k p e₁ e₂ c₁ c₂ : List Nat)
    (h₁ : cocoonEncryptWithEntropy ext e₁ k p = .ok c₁)
    (h₂ : cocoonEncryptWithEntropy ext e₂ k p = .ok c₂) :
    c₁ = c₂ := by
  unfold cocoonEncryptWithEntropy at h₁ h₂
  rw [h₁] at h₂
  simpa using h₂

theorem c2_encrypt_deterministic_witness :
    (cocoonEncryptWithEntropy modelExtFns [1] [7] [9] = .ok [9, 7, 9]) ∧
    ([9, 7, 9] : List Nat) = [9, 7, 9] :=
  ⟨rfl, c2_encrypt_deterministic modelExtFns [7] [9] [1] [2, 2] [9, 7, 9] [9, 7, 9] rfl rfl⟩

/-- A vault lookup after `add_key`: the new entry is returned at its own
`(component_id, index)` slot — replacing whatever was there — and every other
slot is untouched. -/
theorem getKey_addKey (c : KeyCocoon) (e : DerivedKeyEntry) (now : Nat)
    (componentId : String) (i : Nat) :
    (c.addKey e now).getKey componentId i =
      if componentId = e.componentId ∧ i = e.index then some e
      else c.getKey componentId i := by
  have hkid : e.keyId = e.componentId ++ ":" ++ natRepr e.index := rfl
  unfold KeyCocoon.addKey KeyCocoon.getKey
  simp only
  rw [alFind_alInsert]
  by_cases h : componentId = e.componentId ∧ i = e.index
  · obtain ⟨h1, h2⟩ := h
    subst h1
    subst h2
    rw [if_pos hkid, if_pos ⟨rfl, rfl⟩]
  · rw [if_neg h, if_neg]
    intro hk
    rw [hkid] at hk
    exact h ⟨(keyFormat_inj hk.symm).1, (keyFormat_inj hk.symm).2⟩

/-- C3 (counterexample): the vault is not add-only.  After storing an entry
with public key `"p1"` at slot `("c", 0)`, a later `add_key` of a different
entry at the same slot replaces it (`HashMap::insert` overwrites): `get_key`
then returns the second entry, not the first. -/
theorem c3_add_only_counterexample :
    (((KeyCocoon.new (List.replicate 32 0) 5).addKey
        (DerivedKeyEntry.new "p1" "s1" "c" 0 .Ed25519 6) 6).getKey "c" 0 =
      some (DerivedKeyEntry.new "p1" "s1" "c" 0 .Ed25519 6)) ∧
    ((((KeyCocoon.new (List.replicate 32 0) 5).addKey
        (DerivedKeyEntry.new "p1" "s1" "c" 0 .Ed25519 6) 6).addKey
        (DerivedKeyEntry.new "p2" "s2" "c" 0 .Ed25519 7) 7).getKey "c" 0 =
      some (DerivedKeyEntry.new "p2" "s2" "c" 0 .Ed25519 7)) ∧
    DerivedKeyEntry.new "p2" "s2" "c" 0 .Ed25519 7 ≠
      DerivedKeyEntry.new "p1" "s1" "c" 0 .Ed25519 6 := by
  refine ⟨?_, ?_, ?_⟩ <;> decide

/-- C3 (amended): `add_key` inserts under the entry's `component_id:index`
slot, replacing any existing entry at that same slot wholesale; entries at
every other slot are preserved unchanged (no entry is ever edited in place —
the only mutation is whole-entry replacement at the added entry's own slot,
and the key service only calls `add_key` on slots it has checked are
empty). -/
theorem c3_add_only_amended (c : KeyCocoon) (e : DerivedKeyEntry) (now : Nat)
    (componentId : String) (i : Nat) :
    (c.addKey e now).getKey componentId i =
      if componentId = e.componentId ∧ i = e.index then some e
      else c.getKey componentId i :=
  getKey_addKey c e now componentId i

/-- C4: `derive_at_index` is idempotent on an occupied slot.  If the loaded
vault holds an entry at `(component_id, index)`, the call returns that
entry's `public_key`, `index` and `created_at` verbatim, performs no save
(the vault value is returned unchanged), and a second call at any later time
returns the identical response. -/
theorem c4_derive_at_index_idempotent (ext : ExtFns) (vault : Option KeyCocoon)
    (cocoon : KeyCocoon) (componentId : String) (i : Nat) (kt : KeyType)
    (entry : DerivedKeyEntry) (now now' : Nat)
    (hload : loadCocoon vault = .ok cocoon)
    (hget : cocoon.getKey componentId i = some entry) :
    deriveAtIndex ext componentId i kt now vault =
      .ok ({ publicKey := entry.publicKey, index := entry.index,
             created := entry.createdAt }, vault) ∧
    deriveAtIndex ext componentId i kt now' vault =
      deriveAtIndex ext componentId i kt now vault := by
  constructor <;> simp [deriveAtIndex, hload, hget]

/-- The sample vault for the C4 witness: one Ed25519 entry at `("c", 3)`. -/
def c4SampleCocoon : KeyCocoon :=
  (KeyCocoon.new (List.replicate 32 1) 0).addKey
    (DerivedKeyEntry.new "pk" "sk" "c" 3 .Ed25519 1) 1

theorem c4_derive_at_index_idempotent_witness :
    deriveAtIndex modelExtFns "c" 3 KeyType.Ed25519 99 (some c4SampleCocoon) =
      .ok ({ publicKey := "pk", index := 3, created := 1 }, some c4SampleCocoon) :=
  (c4_derive_at_index_idempotent modelExtFns (some c4SampleCocoon) c4SampleCocoon
    "c" 3 .Ed25519 (DerivedKeyEntry.new "pk" "sk" "c" 3 .Ed25519 1) 99 100 rfl
    (by decide)).1

/-- C6: encryption round-trip.  Under the cocoon AEAD contract, for every key
and every plaintext (the empty byte string and megabyte-sized inputs
included — the statement is for all `p`), a successful `encrypt` followed by
`decrypt` under the same key succeeds and returns exactly the plaintext. -/
theorem c6_encrypt_decrypt_roundtrip (ext : ExtFns) (hspec : MiniCocoonSpec ext)
    (k p c : List Nat) (henc : cocoonEncrypt ext k p = .ok c) :
    cocoonDecrypt ext k c = .ok p := by
  have hwrap := cocoonEncrypt_ok_wrap ext k p c henc
  unfold cocoonDecrypt
  rw [hspec.unwrap_wrap k _ p c hwrap]
  rfl

theorem c6_encrypt_decrypt_roundtrip_witness :
    (cocoonEncrypt modelExtFns [7, 7] [1, 2, 3] = .ok [1, 2, 3, 7, 7, 1, 2, 3]) ∧
    cocoonDecrypt modelExtFns [7, 7] [1, 2, 3, 7, 7, 1, 2, 3] = .ok [1, 2, 3] :=
  ⟨rfl, c6_encrypt_decrypt_roundtrip modelExtFns modelExtSpec [7, 7] [1, 2, 3] _ rfl⟩

/-- C7: authenticated failure.  Under the cocoon AEAD contract, decrypting a
ciphertext produced under `k₁` with a different 256-bit key `k₂` yields the
`Crypto` error (never a plaintext), and flipping any single byte of a valid
ciphertext — in particular one near its end — makes decryption under the
original key fail with the `Crypto` error. -/
theorem c7_authenticated_failure (ext : ExtFns) (hspec : MiniCocoonSpec ext)
    (k₁ k₂ p c : List Nat) (h₁ : k₁.length = 32) (h₂ : k₂.length = 32)
    (hne : k₁ ≠ k₂) (henc : cocoonEncrypt ext k₁ p = .ok c) :
    (cocoonDecrypt ext k₂ c =
      .error (OsnovaError.Crypto "Encryption/decryption failed")) ∧
    (∀ i b, i < c.length → c.getD i 0 ≠ b →
      cocoonDecrypt ext k₁ (c.set i b) =
        .error (OsnovaError.Crypto "Encryption/decryption failed")) := by
  have hwrap := cocoonEncrypt_ok_wrap ext k₁ p c henc
  constructor
  · unfold cocoonDecrypt
    rw [hspec.wrong_key k₁ k₂ _ p c (h₁.trans h₂.symm) hne hwrap]
    rfl
  · intro i b hi hb
    unfold cocoonDecrypt
    rw [hspec.tamper k₁ _ p c i b hwrap hi hb]
    rfl

theorem c7_authenticated_failure_witness :
    (cocoonDecrypt modelExtFns (List.replicate 32 2)
        ([5] ++ List.replicate 32 1 ++ [5]) =
      .error (OsnovaError.Crypto "Encryption/decryption failed")) ∧
    cocoonDecrypt modelExtFns (List.replicate 32 1)
        (([5] ++ List.replicate 32 1 ++ [5]).set 33 9) =
      .error (OsnovaError.Crypto "Encryption/decryption failed") := by
  have h := c7_authenticated_failure modelExtFns modelExtSpec (List.replicate 32 1)
    (List.replicate 32 2) [5] ([5] ++ List.replicate 32 1 ++ [5])
    (by decide) (by decide) (by decide) rfl
  exact ⟨h.1, h.2 33 9 (by decide) (by decide)⟩

/-- C10: on an occupied slot, `derive_at_index` ignores the requested
`key_type`.  Even when the stored entry's type differs from the requested
one, the stored entry is returned with no error and no vault change. -/
theorem c10_key_type_ignored (ext : ExtFns) (vault : Option KeyCocoon)
    (cocoon : KeyCocoon) (componentId : String) (i : Nat) (kt : KeyType)
    (entry : DerivedKeyEntry) (now : Nat)
    (hload : loadCocoon vault = .ok cocoon)
    (hget : cocoon.getKey componentId i = some entry)
    (hkt : entry.keyType ≠ kt) :
    deriveAtIndex ext componentId i kt now vault =
      .ok ({ publicKey := entry.publicKey, index := entry.index,
             created := entry.createdAt }, vault) := by
  simp [deriveAtIndex, hload, hget]

/-- The sample vault for the C10 witness: one Ed25519 entry at `("c", 0)`. -/
def c10SampleCocoon : KeyCocoon :=
  (KeyCocoon.new (List.replicate 32 1) 0).addKey
    (DerivedKeyEntry.new "pkE" "skE" "c" 0 .Ed25519 2) 2

theorem c10_key_type_ignored_witness :
    deriveAtIndex modelExtFns "c" 0 KeyType.X25519 50 (some c10SampleCocoon) =
      .ok ({ publicKey := "pkE", index := 0, created := 2 }, some c10SampleCocoon) :=
  c10_key_type_ignored modelExtFns (some c10SampleCocoon) c10SampleCocoon "c" 0
    .X25519 (DerivedKeyEntry.new "pkE" "skE" "c" 0 .Ed25519 2) 50 rfl (by decide)
    (by decide)

/-- A successful wrap makes `save_identity` write the encrypted seed at the
identity path. -/
theorem saveIdentity_ok (ext : ExtFns) (store : Storage) (ident : RootIdentity)
    (key enc : List Nat)
    (hwrap : ext.wrap key (List.replicate 32 0)
      (ext.jsonEncodeString ident.seedMnemonic) = .ok enc) :
    saveIdentity ext store ident key = .ok (alInsert store identityPath enc) := by
  unfold saveIdentity fileWrite cocoonEncrypt
  rw [hwrap]
  rfl

/-- C8: fail-closed identity creation.  When the identity file exists, both
`create` and `import_with_phrase` return an error and leave the store — and
hence the stored seed — byte-for-byte unchanged.  When no identity file
exists, `create` (given a successfully generated identity whose encryption
succeeds) and `import_with_phrase` (given a phrase that parses) succeed and
persist the encrypted seed at `identity/root.enc`. -/
theorem c8_fail_closed (ext : ExtFns) (store : Storage)
    (gen : Except String RootIdentity) (phrase : String) :
    (fileExists store identityPath = true →
      identityCreate ext gen store =
        (.error "Identity already exists. Use importWithPhrase to restore from backup.",
         store) ∧
      identityImportWithPhrase ext phrase store =
        (.error "Identity already exists. Delete existing identity first.", store)) ∧
    (fileExists store identityPath = false →
      (∀ ident enc, gen = .ok ident →
        ext.wrap (getPlatformKey ext) (List.replicate 32 0)
            (ext.jsonEncodeString ident.seedMnemonic) = .ok enc →
        identityCreate ext gen store =
          (.ok (ident.seedMnemonic, deriveAddress ext ident),
           alInsert store identityPath enc) ∧
        fileExists (alInsert store identityPath enc) identityPath = true) ∧
      (∀ ident enc, RootIdentity.fromSeed ext phrase = .ok ident →
        ext.wrap (getPlatformKey ext) (List.replicate 32 0)
            (ext.jsonEncodeString ident.seedMnemonic) = .ok enc →
        identityImportWithPhrase ext phrase store =
          (.ok (deriveAddress ext ident), alInsert store identityPath enc) ∧
        fileExists (alInsert store identityPath enc) identityPath = true)) := by
  constructor
  · intro hex
    constructor
    · simp [identityCreate, hex]
    · simp [identityImportWithPhrase, hex]
  · intro hex
    constructor
    · intro ident enc hgen hwrap
      subst hgen
      constructor
      · have hsave := saveIdentity_ok ext store ident (getPlatformKey ext) enc hwrap
        simp [identityCreate, hex, hsave]
      · simp [fileExists, alFind_alInsert]
    · intro ident enc hparse hwrap
      constructor
      · have hsave := saveIdentity_ok ext store ident (getPlatformKey ext) enc hwrap
        simp [identityImportWithPhrase, hex, hparse, hsave]
      · simp [fileExists, alFind_alInsert]

/-- The occupied store for the C8 witness: some bytes already sit at the
identity path. -/
def c8BusyStore : Storage := [(identityPath, [1, 2, 3])]

/-- The identity the C8 witness pretends the RNG produced. -/
def c8Ident : RootIdentity := { seedMnemonic := "w", masterKey := [1] }

theorem c8_fail_closed_witness :
    (identityCreate modelExtFns (.error "rng unavailable") c8BusyStore =
      (.error "Identity already exists. Use importWithPhrase to restore from backup.",
       c8BusyStore)) ∧
    (identityImportWithPhrase modelExtFns "w" c8BusyStore =
      (.error "Identity already exists. Delete existing identity first.", c8BusyStore)) ∧
    identityCreate modelExtFns (.ok c8Ident) [] =
      (.ok (c8Ident.seedMnemonic, deriveAddress modelExtFns c8Ident),
       alInsert [] identityPath
         (utf8Bytes "w" ++ getPlatformKey modelExtFns ++ utf8Bytes "w")) := by
  have hbusy := (c8_fail_closed modelExtFns c8BusyStore (.error "rng unavailable") "w").1
    (by decide)
  have hfree := ((c8_fail_closed modelExtFns [] (.ok c8Ident) "w").2 (by decide)).1
    c8Ident (utf8Bytes "w" ++ getPlatformKey modelExtFns ++ utf8Bytes "w") rfl rfl
  exact ⟨hbusy.1, hbusy.2, hfree.1⟩

/-- C9: soft status.  `status` never propagates a load failure: with no
identity file it reports `initialized = false, address = none`; when the file
exists but loading fails (undecryptable or unparsable content), it still
returns `Ok` with `initialized = false, address = none`; and when loading
succeeds it reports `initialized = true` with the derived 4-word address. -/
theorem c9_status_soft (ext : ExtFns) (store : Storage) :
    (fileExists store identityPath = false →
      identityStatus ext store = .ok { initialized := false, address := none }) ∧
    (∀ e, loadIdentity ext store (getPlatformKey ext) = .error e →
      identityStatus ext store = .ok { initialized := false, address := none }) ∧
    (∀ ident, loadIdentity ext store (getPlatformKey ext) = .ok ident →
      fileExists store identityPath = true →
      identityStatus ext store =
        .ok { initialized := true, address := some (deriveAddress ext ident) }) := by
  refine ⟨?_, ?_, ?_⟩
  · intro hex
    simp [identityStatus, hex]
  · intro e hload
    by_cases hex : fileExists store identityPath = true
    · simp [identityStatus, hex, hload]
    · have hex' : fileExists store identityPath = false := by simpa using hex
      simp [identityStatus, hex']
  · intro ident hload hex
    simp [identityStatus, hex, hload]

/-- The undecryptable store for the C9 witness: the identity file exists but
holds one byte that the cipher rejects. -/
def c9BadStore : Storage := [(identityPath, [5])]

theorem c9_status_soft_witness :
    (loadIdentity modelExtFns c9BadStore (getPlatformKey modelExtFns) =
      .error "Failed to read identity from storage") ∧
    identityStatus modelExtFns c9BadStore =
      .ok { initialized := false, address := none } :=
  ⟨rfl,
   (c9_status_soft modelExtFns c9BadStore).2.1 "Failed to read identity from storage"
     rfl⟩

/-! ## Lemmas for the auto-derive claim -/

theorem wf_new (mk : List Nat) (now : Nat) : (KeyCocoon.new mk now).WF := by
  intro kv hkv
  simp [KeyCocoon.new] at hkv

theorem mem_alInsert {α : Type} (m : List (String × α)) (k : String) (v : α) :
    ∀ kv, kv ∈ alInsert m k v → kv ∈ m ∨ kv = (k, v) := by
  induction m with
  | nil =>
    intro kv h
    right
    simpa [alInsert] using h
  | cons kv₀ rest ih =>
    intro kv h
    obtain ⟨k₀, v₀⟩ := kv₀
    simp only [alInsert] at h
    split at h
    · rcases List.mem_cons.mp h with h1 | h1
      · exact Or.inr h1
      · exact Or.inl (List.mem_cons_of_mem _ h1)
    · rcases List.mem_cons.mp h with h1 | h1
      · exact Or.inl (h1 ▸ List.mem_cons_self _ _)
      · rcases ih kv h1 with h2 | h2
        · exact Or.inl (List.mem_cons_of_mem _ h2)
        · exact Or.inr h2

theorem wf_addKey (c : KeyCocoon) (e : DerivedKeyEntry) (now : Nat) (h : c.WF) :
    (c.addKey e now).WF := by
  intro kv hkv
  rcases mem_alInsert c.derivedKeys e.keyId e kv hkv with hm | hm
  · exact h kv hm
  · subst hm; rfl

theorem getKey_none_of_listKeys_nil (cocoon : KeyCocoon) (hWF : cocoon.WF)
    (c : String) (h : cocoon.listKeys c = []) (i : Nat) : cocoon.getKey c i = none := by
  unfold KeyCocoon.getKey
  cases hf : alFind cocoon.derivedKeys (c ++ ":" ++ natRepr i) with
  | none => rfl
  | some v =>
    exfalso
    have hmem := alFind_some_mem _ _ _ hf
    have hkey : c ++ ":" ++ natRepr i = v.keyId := hWF _ hmem
    have hinj := @keyFormat_inj c v.componentId i v.index hkey
    have hv : v ∈ cocoon.derivedKeys.map Prod.snd :=
      List.mem_map.mpr ⟨_, hmem, rfl⟩
    have hvl : v ∈ cocoon.listKeys c := by
      unfold KeyCocoon.listKeys
      exact List.mem_filter.mpr ⟨hv, beq_iff_eq.mpr hinj.1.symm⟩
    rw [h] at hvl
    exact List.not_mem_nil v hvl

theorem listKeys_addKey_fresh (cocoon : KeyCocoon) (e : DerivedKeyEntry) (now : Nat)
    (hfresh : cocoon.getKey e.componentId e.index = none) (c : String) :
    (cocoon.addKey e now).listKeys c =
      cocoon.listKeys c ++ if e.componentId == c then [e] else [] := by
  have hfresh' : alFind cocoon.derivedKeys e.keyId = none := hfresh
  show ((alInsert cocoon.derivedKeys e.keyId e).map Prod.snd).filter
      (fun x => x.componentId == c) = _
  rw [alInsert_values_of_fresh _ _ _ hfresh', List.filter_append]
  congr 1
  cases hbc : e.componentId == c <;> simp [List.filter, hbc]

theorem highestIndex_eq (cocoon : KeyCocoon) (c : String) (l : List DerivedKeyEntry)
    (h : cocoon.listKeys c = l) :
    cocoon.highestIndex c = (l.map (fun e => e.index)).max? := by
  unfold KeyCocoon.highestIndex
  rw [h]

theorem nextIndex_nil (cocoon : KeyCocoon) (c : String) (h : cocoon.listKeys c = []) :
    nextIndex cocoon c = 0 := by
  unfold nextIndex
  rw [highestIndex_eq cocoon c [] h]
  rfl

/-- The public key the service derives and stores for
`(master_key, component_id, index, key_type)`: the HKDF seed pushed through
the requested curve, base64-encoded.  (`Secp256k1` carries a dummy value —
the service errors before producing one.) -/
def derivedPublicKey (ext : ExtFns) (mk : List Nat) (componentId : String) (i : Nat) :
    KeyType → String
  | .Ed25519 => base64Encode (ext.ed25519Pub (deriveSymmetricKey mk componentId i))
  | .X25519 => base64Encode (ext.x25519Pub (deriveSymmetricKey mk componentId i))
  | .Secp256k1 => ""

/-- The entry `derive_at_index_internal` builds and stores. -/
def c5Entry (ext : ExtFns) (mk : List Nat) (componentId : String) (i : Nat)
    (kt : KeyType) (now : Nat) : DerivedKeyEntry :=
  DerivedKeyEntry.new (derivedPublicKey ext mk componentId i kt)
    (base64Encode (deriveSymmetricKey mk componentId i)) componentId i kt now

theorem generateKeypairStr_eq (ext : ExtFns) (mk : List Nat) (c : String) (i : Nat)
    (kt : KeyType) (hkt : kt ≠ KeyType.Secp256k1) :
    generateKeypairStr ext kt (deriveSymmetricKey mk c i) =
      .ok (derivedPublicKey ext mk c i kt, base64Encode (deriveSymmetricKey mk c i)) := by
  cases kt with
  | Ed25519 => rfl
  | X25519 => rfl
  | Secp256k1 => exact absurd rfl hkt

/-- One `derive` call on a loaded vault: it derives at the next free index,
stores the new entry, and answers with its public key, index and
timestamp. -/
theorem derive_step (ext : ExtFns) (cocoon : KeyCocoon) (c : String) (kt : KeyType)
    (now : Nat) (hkt : kt ≠ KeyType.Secp256k1) :
    derive ext c kt now (some cocoon) =
      .ok ({ publicKey := derivedPublicKey ext cocoon.masterKey c (nextIndex cocoon c) kt,
             index := nextIndex cocoon c, created := now },
           some (cocoon.addKey
             (c5Entry ext cocoon.masterKey c (nextIndex cocoon c) kt now) now)) := by
  simp only [derive, loadCocoon, deriveAtIndexInternal,
    generateKeypairStr_eq ext cocoon.masterKey c (nextIndex cocoon c) kt hkt,
    saveCocoon, c5Entry, DerivedKeyEntry.new]

/-- C5: auto-derive index assignment.  (i) On any loaded vault state,
`derive` stores and returns index `highest+1` — `nextIndex`, which is `0`
for a component with no entries.  (ii) Starting from a component `cA` with no
entries, three successive `derive` calls return indices 0, 1, 2, storing the
three entries, and the three returned public keys (pinned to the embedded
HKDF derivation at indices 0, 1, 2) are pairwise distinct.  (iii) The index
counters of distinct components are independent: after the three derives on
`cA`, a `derive` on a different entry-free component `cB` still returns
index 0. -/
theorem c5_auto_derive_indexing (ext : ExtFns) (cocoon : KeyCocoon)
    (cA cB cG : String) (kt : KeyType) (n₁ n₂ n₃ n₄ : Nat)
    (hkt : kt ≠ KeyType.Secp256k1)
    (hWF : cocoon.WF)
    (hA : cocoon.listKeys cA = [])
    (hB : cocoon.listKeys cB = [])
    (hAB : cA ≠ cB)
    (hp01 : derivedPublicKey ext cocoon.masterKey cA 0 kt ≠
        derivedPublicKey ext cocoon.masterKey cA 1 kt)
    (hp02 : derivedPublicKey ext cocoon.masterKey cA 0 kt ≠
        derivedPublicKey ext cocoon.masterKey cA 2 kt)
    (hp12 : derivedPublicKey ext cocoon.masterKey cA 1 kt ≠
        derivedPublicKey ext cocoon.masterKey cA 2 kt) :
    (derive ext cG kt n₁ (some cocoon) =
      .ok ({ publicKey := derivedPublicKey ext cocoon.masterKey cG (nextIndex cocoon cG) kt,
             index := nextIndex cocoon cG, created := n₁ },
           some (cocoon.addKey
             (c5Entry ext cocoon.masterKey cG (nextIndex cocoon cG) kt n₁) n₁))) ∧
    (derive ext cA kt n₁ (some cocoon) =
      .ok ({ publicKey := derivedPublicKey ext cocoon.masterKey cA 0 kt,
             index := 0, created := n₁ },
           some (cocoon.addKey (c5Entry ext cocoon.masterKey cA 0 kt n₁) n₁))) ∧
    (derive ext cA kt n₂
        (some (cocoon.addKey (c5Entry ext cocoon.masterKey cA 0 kt n₁) n₁)) =
      .ok ({ publicKey := derivedPublicKey ext cocoon.masterKey cA 1 kt,
             index := 1, created := n₂ },
           some ((cocoon.addKey (c5Entry ext cocoon.masterKey cA 0 kt n₁) n₁).addKey
             (c5Entry ext cocoon.masterKey cA 1 kt n₂) n₂))) ∧
    (derive ext cA kt n₃
        (some ((cocoon.addKey (c5Entry ext cocoon.masterKey cA 0 kt n₁) n₁).addKey
          (c5Entry ext cocoon.masterKey cA 1 kt n₂) n₂)) =
      .ok ({ publicKey := derivedPublicKey ext cocoon.masterKey cA 2 kt,
             index := 2, created := n₃ },
           some (((cocoon.addKey (c5Entry ext cocoon.masterKey cA 0 kt n₁) n₁).addKey
             (c5Entry ext cocoon.masterKey cA 1 kt n₂) n₂).addKey
             (c5Entry ext cocoon.masterKey cA 2 kt n₃) n₃))) ∧
    (derivedPublicKey ext cocoon.masterKey cA 0 kt ≠
        derivedPublicKey ext cocoon.masterKey cA 1 kt ∧
     derivedPublicKey ext cocoon.masterKey cA 0 kt ≠
        derivedPublicKey ext cocoon.masterKey cA 2 kt ∧
     derivedPublicKey ext cocoon.masterKey cA 1 kt ≠
        derivedPublicKey ext cocoon.masterKey cA 2 kt) ∧
    (derive ext cB kt n₄
        (some (((cocoon.addKey (c5Entry ext cocoon.masterKey cA 0 kt n₁) n₁).addKey
          (c5Entry ext cocoon.masterKey cA 1 kt n₂) n₂).addKey
          (c5Entry ext cocoon.masterKey cA 2 kt n₃) n₃)) =
      .ok ({ publicKey := derivedPublicKey ext cocoon.masterKey cB 0 kt,
             index := 0, created := n₄ },
           some ((((cocoon.addKey (c5Entry ext cocoon.masterKey cA 0 kt n₁) n₁).addKey
             (c5Entry ext cocoon.masterKey cA 1 kt n₂) n₂).addKey
             (c5Entry ext cocoon.masterKey cA 2 kt n₃) n₃).addKey
             (c5Entry ext cocoon.masterKey cB 0 kt n₄) n₄))) := by
  have hf0 := getKey_none_of_listKeys_nil cocoon hWF cA hA 0
  have hf1 := getKey_none_of_listKeys_nil cocoon hWF cA hA 1
  have hf2 := getKey_none_of_listKeys_nil cocoon hWF cA hA 2
  -- first derive on cA
  have hd1 := derive_step ext cocoon cA kt n₁ hkt
  rw [nextIndex_nil cocoon cA hA] at hd1
  -- facts about the vault after the first derive
  have hl1A : (cocoon.addKey (c5Entry ext cocoon.masterKey cA 0 kt n₁) n₁).listKeys cA
      = [c5Entry ext cocoon.masterKey cA 0 kt n₁] := by
    rw [listKeys_addKey_fresh cocoon _ n₁ hf0 cA, hA]
    simp [c5Entry, DerivedKeyEntry.new]
  have hl1B : (cocoon.addKey (c5Entry ext cocoon.masterKey cA 0 kt n₁) n₁).listKeys cB
      = [] := by
    rw [listKeys_addKey_fresh cocoon _ n₁ hf0 cB, hB]
    simp [c5Entry, DerivedKeyEntry.new, hAB]
  have hn1 : nextIndex (cocoon.addKey (c5Entry ext cocoon.masterKey cA 0 kt n₁) n₁) cA
      = 1 := by
    unfold nextIndex
    rw [highestIndex_eq _ _ _ hl1A]
    rfl
  have hg1 : (cocoon.addKey (c5Entry ext cocoon.masterKey cA 0 kt n₁) n₁).getKey cA 1
      = none := by
    rw [getKey_addKey,
        if_neg (by rintro ⟨-, h⟩; simp [c5Entry, DerivedKeyEntry.new] at h)]
    exact hf1
  -- second derive on cA
  have hd2 := derive_step ext (cocoon.addKey (c5Entry ext cocoon.masterKey cA 0 kt n₁) n₁)
    cA kt n₂ hkt
  rw [hn1] at hd2
  -- facts about the vault after the second derive
  have hl2A : ((cocoon.addKey (c5Entry ext cocoon.masterKey cA 0 kt n₁) n₁).addKey
      (c5Entry ext cocoon.masterKey cA 1 kt n₂) n₂).listKeys cA
      = [c5Entry ext cocoon.masterKey cA 0 kt n₁,
         c5Entry ext cocoon.masterKey cA 1 kt n₂] := by
    rw [listKeys_addKey_fresh _ _ n₂ hg1 cA, hl1A]
    simp [c5Entry, DerivedKeyEntry.new]
  have hl2B : ((cocoon.addKey (c5Entry ext cocoon.masterKey cA 0 kt n₁) n₁).addKey
      (c5Entry ext cocoon.masterKey cA 1 kt n₂) n₂).listKeys cB = [] := by
    rw [listKeys_addKey_fresh _ _ n₂ hg1 cB, hl1B]
    simp [c5Entry, DerivedKeyEntry.new, hAB]
  have hn2 : nextIndex ((cocoon.addKey (c5Entry ext cocoon.masterKey cA 0 kt n₁) n₁).addKey
      (c5Entry ext cocoon.masterKey cA 1 kt n₂) n₂) cA = 2 := by
    unfold nextIndex
    rw [highestIndex_eq _ _ _ hl2A]
    rfl
  have hg2 : ((cocoon.addKey (c5Entry ext cocoon.masterKey cA 0 kt n₁) n₁).addKey
      (c5Entry ext cocoon.masterKey cA 1 kt n₂) n₂).getKey cA 2 = none := by
    rw [getKey_addKey,
        if_neg (by rintro ⟨-, h⟩; simp [c5Entry, DerivedKeyEntry.new] at h),
        getKey_addKey,
        if_neg (by rintro ⟨-, h⟩; simp [c5Entry, DerivedKeyEntry.new] at h)]
    exact hf2
  -- third derive on cA
  have hd3 := derive_step ext
    ((cocoon.addKey (c5Entry ext cocoon.masterKey cA 0 kt n₁) n₁).addKey
      (c5Entry ext cocoon.masterKey cA 1 kt n₂) n₂) cA kt n₃ hkt
  rw [hn2] at hd3
  -- component cB is still empty after the three derives on cA
  have hl3B : (((cocoon.addKey (c5Entry ext cocoon.masterKey cA 0 kt n₁) n₁).addKey
      (c5Entry ext cocoon.masterKey cA 1 kt n₂) n₂).addKey
      (c5Entry ext cocoon.masterKey cA 2 kt n₃) n₃).listKeys cB = [] := by
    rw [listKeys_addKey_fresh _ _ n₃ hg2 cB, hl2B]
    simp [c5Entry, DerivedKeyEntry.new, hAB]
  have hdB := derive_step ext
    (((cocoon.addKey (c5Entry ext cocoon.masterKey cA 0 kt n₁) n₁).addKey
      (c5Entry ext cocoon.masterKey cA 1 kt n₂) n₂).addKey
      (c5Entry ext cocoon.masterKey cA 2 kt n₃) n₃) cB kt n₄ hkt
  rw [nextIndex_nil _ _ hl3B] at hdB
  exact ⟨derive_step ext cocoon cG kt n₁ hkt, hd1, hd2, hd3, ⟨hp01, hp02, hp12⟩, hdB⟩

set_option maxRecDepth 10000

theorem c5_auto_derive_indexing_witness :
    (derive modelExtFns "com.a" KeyType.Ed25519 11
        (some (KeyCocoon.new (List.replicate 32 1) 10)) =
      .ok ({ publicKey := derivedPublicKey modelExtFns
               (KeyCocoon.new (List.replicate 32 1) 10).masterKey "com.a" 0 .Ed25519,
             index := 0, created := 11 },
           some ((KeyCocoon.new (List.replicate 32 1) 10).addKey
             (c5Entry modelExtFns (KeyCocoon.new (List.replicate 32 1) 10).masterKey
               "com.a" 0 .Ed25519 11) 11))) ∧
    (derivedPublicKey modelExtFns (KeyCocoon.new (List.replicate 32 1) 10).masterKey
        "com.a" 0 .Ed25519 ≠
      derivedPublicKey modelExtFns (KeyCocoon.new (List.replicate 32 1) 10).masterKey
        "com.a" 1 .Ed25519 ∧
     derivedPublicKey modelExtFns (KeyCocoon.new (List.replicate 32 1) 10).masterKey
        "com.a" 0 .Ed25519 ≠
      derivedPublicKey modelExtFns (KeyCocoon.new (List.replicate 32 1) 10).masterKey
        "com.a" 2 .Ed25519 ∧
     derivedPublicKey modelExtFns (KeyCocoon.new (List.replicate 32 1) 10).masterKey
        "com.a" 1 .Ed25519 ≠
      derivedPublicKey modelExtFns (KeyCocoon.new (List.replicate 32 1) 10).masterKey
        "com.a" 2 .Ed25519) := by
  have h := c5_auto_derive_indexing modelExtFns (KeyCocoon.new (List.replicate 32 1) 10)
    "com.a" "com.b" "com.g" .Ed25519 11 12 13 14 (by decide)
    (wf_new (List.replicate 32 1) 10) rfl rfl (by decide) (by decide) (by decide)
    (by decide)
  exact ⟨h.2.1, h.2.2.2.2.1⟩

/-- Implementation check of the embedded hash: the FIPS 180-4 test vector
`SHA-256("abc")`. -/
theorem sha256_abc_vector : sha256 (utf8Bytes "abc") =
    [186, 120, 22, 191, 143, 1, 207, 234, 65, 65, 64, 222, 93, 174, 34, 35,
     176, 3, 97, 163, 150, 23, 122, 156, 180, 16, 255, 97, 242, 0, 21, 173] := by
  decide

/-- Implementation check of the embedded MAC: RFC 4231 test case 1 for
HMAC-SHA256 (20-byte `0x0b` key, message `"Hi There"`). -/
theorem hmacSha256_rfc4231_vector :
    hmacSha256 (List.replicate 20 11) (utf8Bytes "Hi There") =
    [176, 52, 76, 97, 216, 219, 56, 83, 92, 168, 175, 206, 175, 11, 241, 43,
     136, 29, 194, 0, 201, 131, 61, 167, 38, 233, 55, 108, 46, 50, 207, 247] := by
  decide
